import Mathlib

/-!
Verification development for a small TCP chat relay
(`src/shared/message.py`, `src/server/server.py`).

The Python code is shallowly embedded: JSON values exchanged on the wire
become an inductive `JsonVal`; Python exceptions become an error type
`PyErr` carried in `Except`; the per-connection session loop becomes an
explicit step function on the shared client registry, modelled as a list
(one arbitrary but fixed iteration order of the Python `set`).
-/

namespace Sockets

/-- JSON values as handled by Python's `json` module, restricted to the
shapes this wire protocol exchanges: null, booleans, integers, strings,
arrays and string-keyed objects (floats never occur in this protocol). -/
inductive JsonVal : Type where
  | null : JsonVal
  | bool : Bool → JsonVal
  | num : Int → JsonVal
  | str : String → JsonVal
  | arr : List JsonVal → JsonVal
  | obj : List (String × JsonVal) → JsonVal
  deriving Repr

/-- Python exceptions that the embedded code can raise.  `valueError`
carries the message string the source passes to `ValueError(...)`;
`jsonDecodeError` is `json.decoder.JSONDecodeError`; `keyError` is the
`KeyError` from a missing dict key; `typeError` is the `TypeError` from
subscripting a non-dict or calling `int()` on an unsuitable value;
`osError` is a socket-level failure raised by `socket.send`. -/
inductive PyErr : Type where
  | jsonDecodeError : PyErr
  | keyError : String → PyErr
  | typeError : String → PyErr
  | valueError : String → PyErr
  | osError : PyErr
  deriving Repr, DecidableEq

/-- Python truthiness (`not x` in the source tests falsiness): `None`,
`False`, `0`, `""`, `[]` and `\x7b\x7d` are falsy, everything else truthy. -/
def JsonVal.truthy : JsonVal → Bool
  | .null => false
  | .bool b => b
  | .num n => n != 0
  | .str s => !s.isEmpty
  | .arr l => !l.isEmpty
  | .obj l => !l.isEmpty

/-- Python `d[k]` on a parsed JSON payload: subscripting a non-object
raises `TypeError`; a missing key raises `KeyError k`.  Python dicts hold
each key once; `json.loads` keeps the last occurrence of a duplicated
key, hence the reversed association lookup. -/
def JsonVal.getItem (v : JsonVal) (k : String) : Except PyErr JsonVal :=
  match v with
  | .obj l =>
    match l.reverse.find? (fun p => p.1 == k) with
    | some p => .ok p.2
    | none => .error (.keyError k)
  | _ => .error (.typeError "value is not subscriptable")

/-- Python `int(x)` on a JSON value: ints pass through, booleans coerce
to 0/1, strings are parsed (raising `ValueError` when not a decimal
integer literal), everything else raises `TypeError`. -/
def pyInt : JsonVal → Except PyErr Int
  | .num n => .ok n
  | .bool b => .ok (if b then 1 else 0)
  | .str s =>
    match s.toInt? with
    | some n => .ok n
    | none => .error (.valueError "invalid literal for int() with base 10")
  | _ => .error (.typeError "int() argument must be a string or a number")

/-- `MessageTypeEnum` from `src/shared/message.py`. -/
inductive MessageTypeEnum : Type where
  | CLIENT_TO_CLIENT : MessageTypeEnum
  | CLIENT_TO_SERVER : MessageTypeEnum
  | SERVER_TO_CLIENT : MessageTypeEnum
  | CLIENT_LIST_UPDATE : MessageTypeEnum
  | DISCONNECT_NOTIFICATION : MessageTypeEnum
  | UPDATE_CLIENT_ALIAS : MessageTypeEnum
  | GENERATED_CLIENT_UUID : MessageTypeEnum
  deriving Repr, DecidableEq

/-- The integer code of each enum member (`.value` in Python). -/
def MessageTypeEnum.value : MessageTypeEnum → Int
  | .CLIENT_TO_CLIENT => 1
  | .CLIENT_TO_SERVER => 2
  | .SERVER_TO_CLIENT => 3
  | .CLIENT_LIST_UPDATE => 4
  | .DISCONNECT_NOTIFICATION => 5
  | .UPDATE_CLIENT_ALIAS => 6
  | .GENERATED_CLIENT_UUID => 7

/-- `MessageTypeEnum(n)` in Python: the member with code `n`, or `none`
when Python would raise `ValueError` (`n` is not a valid member). -/
def MessageTypeEnum.ofValue (n : Int) : Option MessageTypeEnum :=
  if n = 1 then some .CLIENT_TO_CLIENT
  else if n = 2 then some .CLIENT_TO_SERVER
  else if n = 3 then some .SERVER_TO_CLIENT
  else if n = 4 then some .CLIENT_LIST_UPDATE
  else if n = 5 then some .DISCONNECT_NOTIFICATION
  else if n = 6 then some .UPDATE_CLIENT_ALIAS
  else if n = 7 then some .GENERATED_CLIENT_UUID
  else none

/-- The `Message` class of `src/shared/message.py`.  The `message`,
`destination` and `from_` attributes are annotated `str` / `str | None`
but Python does not enforce the annotation — `decode` stores whatever
JSON value the payload carried — so they are embedded as `JsonVal`
(a Python `None` is `JsonVal.null`, a string `s` is `JsonVal.str s`). -/
structure Message : Type where
  message_type : MessageTypeEnum
  message : JsonVal
  destination : JsonVal
  from_ : JsonVal
  deriving Repr

/-- The `ValueError` raised by `Message.validate` on a CLIENT_TO_CLIENT
message with falsy `destination` and falsy `from_`. -/
def validationErr : PyErr :=
  .valueError "Properties Destination and/or From needed for CLIENT TO CLIENT communication"

/-- `Message.validate`.  The first source check
(`if not self.message_type in MessageTypeEnum`) is vacuous here because
the embedded `message_type` field is typed as the enum, as every caller
in the repository guarantees; the second check is the CLIENT_TO_CLIENT
destination/origin invariant. -/
def Message.validate (m : Message) : Except PyErr Unit :=
  if m.message_type == .CLIENT_TO_CLIENT
      && !m.destination.truthy && !m.from_.truthy then
    .error validationErr
  else
    .ok ()

/-- `Message.__init__`: stores the four fields then runs `validate`,
so construction fails exactly when `validate` raises. -/
def Message.mk? (type : MessageTypeEnum) (message : JsonVal)
    (destination : JsonVal) (from_ : JsonVal) : Except PyErr Message :=
  let m : Message :=
    { message_type := type, message := message,
      destination := destination, from_ := from_ }
  match m.validate with
  | .ok _ => .ok m
  | .error e => .error e

/-- `Message.dump` up to serialization: the dict passed to `json.dumps`,
with the source's key insertion order.  `json.dumps` followed by
`json.loads` returns an equal structure, so the wire bytes are modelled
by this JSON value. -/
def Message.dump (m : Message) : JsonVal :=
  .obj [("message_type", .num m.message_type.value),
        ("message", m.message),
        ("destination", m.destination),
        ("from", m.from_)]

/-- Received bytes, as seen through `json.loads`: `none` stands for a
payload that is not parseable JSON text (where `json.loads` raises
`JSONDecodeError`), `some v` for a payload parsing to the value `v`. -/
abbrev Bytes := Option JsonVal

/-- `Message.decode`: `json.loads`, then
`Message(type=MessageTypeEnum(int(loaded["message_type"])),
message=loaded["message"], destination=loaded["destination"],
from_=loaded["from"])`, in Python's left-to-right argument evaluation
order.  The source's `except` clauses log nothing and re-raise, and the
uncaught `KeyError`/`TypeError` propagate identically, so every raised
exception reaches the caller unchanged. -/
def Message.decode (data : Bytes) : Except PyErr Message := do
  match data with
  | none => .error .jsonDecodeError
  | some loaded => do
    let rawType ← loaded.getItem "message_type"
    let code ← pyInt rawType
    let type ←
      match MessageTypeEnum.ofValue code with
      | some t => Except.ok t
      | none => Except.error (.valueError "is not a valid MessageTypeEnum")
    let msg ← loaded.getItem "message"
    let dst ← loaded.getItem "destination"
    let frm ← loaded.getItem "from"
    Message.mk? type msg dst frm

/-! ## Server model (`src/server/server.py`)

A `Client` object is embedded as `ClientR`.  The Python object's socket
is modelled by a `sendOk` flag (whether `socket.send` succeeds or raises
`OSError`) together with an `outbox`: the sequence of payloads written to
this connection's outbound stream, recorded as parsed JSON values.
Python's `set` of clients keeps objects by identity; since every object
gets a fresh `uuid.uuid4()` (process-unique), object identity coincides
with the `uuid` field, and the set is modelled as a `List ClientR` in one
arbitrary but fixed iteration order. -/

/-- The server-side `Client` (connection handle). -/
structure ClientR : Type where
  uuid : String
  alias_ : JsonVal
  address : String × Int
  sendOk : Bool
  outbox : List JsonVal
  deriving Repr

/-- `client.socket.send(data)`: appends to the outbox, or raises. -/
def ClientR.send (c : ClientR) (v : JsonVal) : Except PyErr ClientR :=
  if c.sendOk then .ok { c with outbox := c.outbox ++ [v] }
  else .error .osError

/-- `Client.dump`: the directory entry for this client.  The Python
`(ip, port)` tuple serializes as a JSON array. -/
def ClientR.dump (c : ClientR) : JsonVal :=
  .obj [("uuid", .str c.uuid), ("alias", c.alias_),
        ("address", .arr [.str c.address.1, .num c.address.2])]

/-- Python `==` between an arbitrary value and a `str`: `str.__eq__`
answers `NotImplemented` for a non-string operand and the comparison
falls back to `False`, so only an equal string compares equal. -/
def pyEqStr (u : JsonVal) (s : String) : Bool :=
  match u with
  | .str t => t == s
  | _ => false

/-- `ClientList.get_by_uuid`: first client of the iteration order whose
`uuid` equals the given value, else `ValueError`.  The argument is the
raw `message.destination`, so the comparison is Python `==` between a
`str` and an arbitrary value: false unless the value is that string. -/
def getByUuid (clients : List ClientR) (u : JsonVal) : Except PyErr ClientR :=
  match clients.find? (fun c => pyEqStr u c.uuid) with
  | some c => .ok c
  | none => .error (.valueError "No client match the given uuid")

/-- `ClientList.add_client`: `set.add` of a freshly created object always
inserts a new element. -/
def addClient (clients : List ClientR) (c : ClientR) : List ClientR :=
  clients ++ [c]

/-- `ClientList.remove_client`: Python `set.remove` — removes the given
object if present, otherwise raises `KeyError`.  Membership is object
identity, i.e. the `uuid` field under this embedding. -/
def removeClient (clients : List ClientR) (c : ClientR) :
    Except PyErr (List ClientR) :=
  if clients.any (fun x => x.uuid == c.uuid) then
    .ok (clients.filter (fun x => x.uuid != c.uuid))
  else
    .error (.keyError c.uuid)

/-- The list comprehension `[client.dump() for client in self.clients]`
of `ClientList.update_clients` — the directory snapshot. -/
def snapshot (clients : List ClientR) : List JsonVal :=
  clients.map ClientR.dump

/-- The `for` loop of `ClientList.update_clients`: send `v` to each
client in iteration order; on the first send failure the exception is
logged and re-raised, so the loop stops and the remaining clients are
not sent to.  Returns the updated clients and the escaped exception, if
any. -/
def sendAll (v : JsonVal) : List ClientR → List ClientR × Option PyErr
  | [] => ([], none)
  | c :: rest =>
    match c.send v with
    | .ok c' =>
      let r := sendAll v rest
      (c' :: r.1, r.2)
    | .error e => (c :: rest, some e)

/-- Serialization placeholder for `json.dumps` applied to the snapshot
list in `update_clients`.  No theorem depends on the concrete characters
of the serialized directory, only on it being the string placed in the
`message` field, so the serializer is left abstract over the rendered
text via `reprStr` (injective enough for this development's purposes and
never unfolded). -/
def dumpsDirectory (entries : List JsonVal) : String :=
  reprStr entries

/-- The `CLIENT_LIST_UPDATE` message built by `update_clients`
(`destination` and `from_` default to `None`).  Its construction via
`Message.__init__` always validates: the type is not CLIENT_TO_CLIENT. -/
def directoryMessage (clients : List ClientR) : Message :=
  { message_type := .CLIENT_LIST_UPDATE,
    message := .str (dumpsDirectory (snapshot clients)),
    destination := .null, from_ := .null }

/-- `ClientList.update_clients`: skip when there are no clients; else
build the directory message and send its encoding to every client,
stopping at (and re-raising) the first send failure. -/
def updateClients (clients : List ClientR) : List ClientR × Option PyErr :=
  if clients.isEmpty then (clients, none)
  else sendAll (directoryMessage clients).dump clients

/-- Append `v` to the outbox of the first client whose uuid is `u`
(the object `get_by_uuid` returned). -/
def deliverTo (clients : List ClientR) (u : String) (v : JsonVal) :
    List ClientR :=
  match clients with
  | [] => []
  | c :: rest =>
    if c.uuid == u then { c with outbox := c.outbox ++ [v] } :: rest
    else c :: deliverTo rest u v

/-- `Client.send_to_destination`: raise `ValueError` on a falsy
`destination`; look the destination up by uuid (`ValueError` on a miss);
send the encoded message on the destination's socket.  The `from_` field
is forwarded exactly as the client supplied it. -/
def sendToDestination (clients : List ClientR) (message : Message) :
    Except PyErr (List ClientR) := do
  if !message.destination.truthy then
    .error (.valueError "Missing destination.")
  else do
    let dest ← getByUuid clients message.destination
    match dest.send message.dump with
    | .ok _ => .ok (deliverTo clients dest.uuid message.dump)
    | .error e => .error e

/-- `Client.update_alias` minus the broadcast: set this session's alias. -/
def setAlias (clients : List ClientR) (selfUuid : String) (a : JsonVal) :
    List ClientR :=
  clients.map (fun c => if c.uuid == selfUuid then { c with alias_ := a } else c)

/-- `Client.handle_message`.  Errors carry the registry state at raise
time (mutations made before the exception persist).  CLIENT_TO_SERVER is
log-only; UPDATE_CLIENT_ALIAS sets the alias then broadcasts (a
broadcast failure escapes after the alias mutation); CLIENT_TO_CLIENT
routes via `send_to_destination`; the remaining types fall through. -/
def handleMessage (selfUuid : String) (clients : List ClientR)
    (message : Message) : Except (PyErr × List ClientR) (List ClientR) :=
  if message.message_type == .CLIENT_TO_SERVER then .ok clients
  else if message.message_type == .UPDATE_CLIENT_ALIAS then
    let clients' := setAlias clients selfUuid message.message
    match updateClients clients' with
    | (clients'', none) => .ok clients''
    | (clients'', some e) => .error (e, clients'')
  else if message.message_type == .CLIENT_TO_CLIENT then
    match sendToDestination clients message with
    | .ok clients' => .ok clients'
    | .error e => .error (e, clients)
  else .ok clients

/-- Outcome of one iteration of the `while True` loop in
`Client.handle`: keep looping in the Active state, or break out
(the Closing path: remove self, broadcast, return). -/
inductive StepResult : Type where
  | active : List ClientR → StepResult
  | closing : List ClientR → StepResult
  deriving Repr

/-- `Client.parse_message`: `Message.decode`; its `except ValueError`
clause only logs and re-raises, so the result is that of `decode`. -/
def parseMessage (data : Bytes) : Except PyErr Message :=
  Message.decode data

/-- One iteration of the `while True` loop in `Client.handle`, given the
inbound bytes read by `recv`: parse; break on DISCONNECT_NOTIFICATION;
otherwise dispatch.  Any exception anywhere in the body is caught by
`except Exception`, logged, and answered with `break` — ending the
session. -/
def handleStep (selfUuid : String) (clients : List ClientR) (data : Bytes) :
    StepResult :=
  match parseMessage data with
  | .error _ => .closing clients
  | .ok message =>
    if message.message_type == .DISCONNECT_NOTIFICATION then .closing clients
    else
      match handleMessage selfUuid clients message with
      | .ok clients' => .active clients'
      | .error (_, clients') => .closing clients'

/-- The tail of `Client.handle` after the loop breaks: remove self from
the registry and broadcast the new directory.  A `KeyError` from the
removal or a send failure from the broadcast would escape `handle` and
kill only this thread; both are surfaced in the `Option PyErr`. -/
def closeSession (self : ClientR) (clients : List ClientR) :
    List ClientR × Option PyErr :=
  match removeClient clients self with
  | .ok clients' => updateClients clients'
  | .error e => (clients, some e)

/-- `uuid.uuid4()` modelled as a fresh-name generator: the n-th accepted
connection gets a string of n+1 `u`s, so ids are non-empty and pairwise
distinct — the process-uniqueness guarantee the source relies on; no
other property of the generated text is used anywhere. -/
def freshUuid (n : Nat) : String :=
  String.mk (List.replicate (n + 1) 'u')

/-- Server state: the shared registry plus the uuid generator state. -/
structure ServerSt : Type where
  clients : List ClientR
  nextId : Nat
  deriving Repr

/-- One accepted connection, through the entry of `Client.handle`:
create the `Client` with a fresh uuid and empty alias, send it its
GENERATED_CLIENT_UUID message, `add_client`, `update_clients`.  All
sockets are taken healthy (`sendOk = true`), matching the no-failure
hypothesis of the directory-correctness property. -/
def acceptJoin (st : ServerSt) (addr : String × Int) : ServerSt :=
  let u := freshUuid st.nextId
  let uuidMessage : Message :=
    { message_type := .GENERATED_CLIENT_UUID, message := .str u,
      destination := .null, from_ := .null }
  let c : ClientR :=
    { uuid := u, alias_ := .str "", address := addr,
      sendOk := true, outbox := [uuidMessage.dump] }
  let clients := addClient st.clients c
  { clients := (updateClients clients).1, nextId := st.nextId + 1 }

/-- `N` connections joining in sequence from the given addresses. -/
def joinN : Nat → ServerSt → ServerSt
  | 0, st => st
  | n + 1, st => joinN n (acceptJoin st ("127.0.0.1", 40000 + n))

/-- The empty server (registry empty, generator at 0). -/
def initSt : ServerSt :=
  { clients := [], nextId := 0 }

/-- The uuids of the registry in iteration order. -/
def uuids (clients : List ClientR) : List String :=
  clients.map ClientR.uuid

/-- A `str | None` value as the embedded JSON-ish Python value. -/
def optStr : Option String → JsonVal
  | none => .null
  | some s => .str s

/-- A `str | None` value is falsy exactly when it is `None` or `""`
("empty" in the specification's words). -/
def optStrEmpty : Option String → Bool
  | none => true
  | some s => s.isEmpty

/-! ## Theorems -/

theorem ofValue_value (t : MessageTypeEnum) :
    MessageTypeEnum.ofValue t.value = some t := by
  cases t <;> rfl

/-- C1: decoding the bytes produced by encoding any valid `Message`
(one that passed its constructor's `validate`) yields a `Message` equal
to the original in all four fields. -/
theorem decode_dump_roundtrip (m : Message) (h : m.validate = .ok ()) :
    Message.decode (some m.dump) = .ok m := by
  simp only [Message.decode, Message.dump, JsonVal.getItem, List.reverse_cons,
    List.reverse_nil, List.nil_append, List.cons_append, List.find?,
    String.reduceBEq]
  simp [Bind.bind, Except.bind, pyInt, ofValue_value, Message.mk?, h]

/-- C1 witness: a concrete valid CLIENT_TO_CLIENT message round-trips. -/
theorem decode_dump_roundtrip_witness :
    Message.decode (some (Message.mk .CLIENT_TO_CLIENT (.str "hi")
      (.str "uuid-b") .null).dump)
      = .ok (Message.mk .CLIENT_TO_CLIENT (.str "hi") (.str "uuid-b") .null) :=
  decode_dump_roundtrip _ (by rfl)

/-- C2: constructing a CLIENT_TO_CLIENT message with both `destination`
and `from_` empty (`None` or `""`) raises the validation `ValueError`;
with at least one non-empty, construction succeeds. -/
theorem clientToClient_validation (msg : JsonVal) (d o : Option String) :
    (optStrEmpty d = true → optStrEmpty o = true →
      Message.mk? .CLIENT_TO_CLIENT msg (optStr d) (optStr o)
        = .error validationErr)
    ∧ (optStrEmpty d = false ∨ optStrEmpty o = false →
      Message.mk? .CLIENT_TO_CLIENT msg (optStr d) (optStr o)
        = .ok (Message.mk .CLIENT_TO_CLIENT msg (optStr d) (optStr o))) := by
  cases d <;> cases o <;>
    simp_all [optStrEmpty, optStr, Message.mk?, Message.validate,
      JsonVal.truthy]
  all_goals aesop

/-- C2 witness: both empty fails; origin-only and destination-only
succeed. -/
theorem clientToClient_validation_witness :
    (Message.mk? .CLIENT_TO_CLIENT (.str "x") (optStr none) (optStr none)
      = .error validationErr)
    ∧ (Message.mk? .CLIENT_TO_CLIENT (.str "x") (optStr (some "uuid-b"))
        (optStr none)
      = .ok (Message.mk .CLIENT_TO_CLIENT (.str "x")
        (optStr (some "uuid-b")) (optStr none)))
    ∧ (Message.mk? .CLIENT_TO_CLIENT (.str "x") (optStr none)
        (optStr (some "uuid-a"))
      = .ok (Message.mk .CLIENT_TO_CLIENT (.str "x") (optStr none)
        (optStr (some "uuid-a")))) :=
  ⟨(clientToClient_validation (.str "x") none none).1 rfl rfl,
   (clientToClient_validation (.str "x") (some "uuid-b") none).2 (.inl rfl),
   (clientToClient_validation (.str "x") none (some "uuid-a")).2 (.inr rfl)⟩

/-- C10: a CLIENT_TO_CLIENT message with a non-empty origin but absent
(`None`) destination passes construction-time validation, yet
`send_to_destination` raises `ValueError("Missing destination.")` on it
for every registry state, so a validly constructed message is
unroutable. -/
theorem valid_but_unroutable (body : JsonVal) (o : String) (ho : o ≠ "") :
    Message.mk? .CLIENT_TO_CLIENT body .null (.str o)
      = .ok (Message.mk .CLIENT_TO_CLIENT body .null (.str o))
    ∧ ∀ clients : List ClientR,
        sendToDestination clients (Message.mk .CLIENT_TO_CLIENT body .null (.str o))
          = .error (.valueError "Missing destination.") := by
  constructor
  · simp [Message.mk?, Message.validate, JsonVal.truthy,
      String.isEmpty_iff, ho]
  · intro clients
    simp [sendToDestination, JsonVal.truthy]

/-- Whether the parsed payload carries the key `k` (false as well when
the payload is not an object at all, in which case every required field
is absent from it). -/
def hasField (v : JsonVal) (k : String) : Bool :=
  match v.getItem k with
  | .ok _ => true
  | .error _ => false

/-- The claim's second failure case: one of the four required envelope
fields is absent from the parsed payload. -/
def missingRequired (v : JsonVal) : Bool :=
  !(hasField v "message_type" && hasField v "message"
    && hasField v "destination" && hasField v "from")

/-- The claim's third failure case: the payload carries `message_type`
but its value is not one of the recognized integer codes 1–7 (either
`int()` rejects it or the integer is out of range). -/
def badTypeCode (v : JsonVal) : Bool :=
  match v.getItem "message_type" with
  | .error _ => false
  | .ok raw =>
    match pyInt raw with
    | .error _ => true
    | .ok n => decide (¬(1 ≤ n ∧ n ≤ 7))

theorem getItem_error_ne_validation (v : JsonVal) (k : String) (e : PyErr)
    (h : v.getItem k = .error e) : e ≠ validationErr := by
  cases v <;> simp only [JsonVal.getItem] at h
  case obj l =>
    cases hf : l.reverse.find? (fun p => p.1 == k) with
    | some p => rw [hf] at h; exact absurd h (by simp)
    | none =>
      rw [hf] at h
      injection h with h
      rw [← h]
      simp [validationErr]
  all_goals
    (injection h with h; rw [← h]; simp [validationErr])

theorem pyInt_error_ne_validation (raw : JsonVal) (e : PyErr)
    (h : pyInt raw = .error e) : e ≠ validationErr := by
  cases raw <;> simp only [pyInt] at h
  case num n => exact absurd h (by simp)
  case bool bb => exact absurd h (by simp)
  case str s =>
    cases ht : s.toInt? with
    | some n => rw [ht] at h; exact absurd h (by simp)
    | none =>
      rw [ht] at h
      injection h with h
      rw [← h]
      simp [validationErr]
  all_goals
    (injection h with h; rw [← h]; simp [validationErr])

theorem ofValue_eq_none_iff (n : Int) :
    MessageTypeEnum.ofValue n = none ↔ ¬(1 ≤ n ∧ n ≤ 7) := by
  unfold MessageTypeEnum.ofValue
  split_ifs <;> simp <;> omega

theorem mk?_ok_or_validation (t : MessageTypeEnum) (a b c : JsonVal) :
    Message.mk? t a b c = .ok (Message.mk t a b c)
    ∨ Message.mk? t a b c = .error validationErr := by
  by_cases hcond : (t == MessageTypeEnum.CLIENT_TO_CLIENT
      && !b.truthy && !c.truthy) = true
  · right
    simp only [Message.mk?, Message.validate, hcond, if_true]
  · left
    simp only [Message.mk?, Message.validate]
    rw [if_neg hcond]

/-- C8: `decode` fails with an error distinct from the validation
`ValueError` in exactly three cases: the payload is not parseable JSON
text; a required field (`message_type`, `message`, `destination`,
`from`) is absent from the parsed payload; or the `message_type` value
is not one of the recognized integer codes 1–7.  In every other case
`decode` either succeeds or raises precisely the validation error. -/
theorem decode_error_classification :
    (Message.decode none = .error .jsonDecodeError
      ∧ PyErr.jsonDecodeError ≠ validationErr)
    ∧ ∀ v : JsonVal,
        ((∃ e, Message.decode (some v) = .error e ∧ e ≠ validationErr) ↔
          (missingRequired v = true ∨ badTypeCode v = true)) := by
  refine ⟨⟨rfl, by simp [validationErr]⟩, ?_⟩
  intro v
  cases hmt : v.getItem "message_type" with
  | error e1 =>
    have hd : Message.decode (some v) = .error e1 := by
      simp [Message.decode, hmt, Bind.bind, Except.bind]
    refine ⟨fun _ => .inl ?_, fun _ => ⟨e1, hd,
      getItem_error_ne_validation v "message_type" e1 hmt⟩⟩
    simp [missingRequired, hasField, hmt]
  | ok raw =>
    cases hpi : pyInt raw with
    | error e2 =>
      have hd : Message.decode (some v) = .error e2 := by
        simp [Message.decode, hmt, hpi, Bind.bind, Except.bind]
      refine ⟨fun _ => .inr ?_, fun _ => ⟨e2, hd,
        pyInt_error_ne_validation raw e2 hpi⟩⟩
      simp [badTypeCode, hmt, hpi]
    | ok n =>
      cases hov : MessageTypeEnum.ofValue n with
      | none =>
        have hd : Message.decode (some v)
            = .error (.valueError "is not a valid MessageTypeEnum") := by
          simp [Message.decode, hmt, hpi, hov, Bind.bind, Except.bind]
        refine ⟨fun _ => .inr ?_, fun _ => ⟨_, hd, by simp [validationErr]⟩⟩
        simp only [badTypeCode, hmt, hpi, decide_eq_true_eq]
        exact (ofValue_eq_none_iff n).mp hov
      | some t =>
        have hbad : badTypeCode v = false := by
          have hbounds : 1 ≤ n ∧ n ≤ 7 := by
            by_contra hc
            rw [(ofValue_eq_none_iff n).mpr hc] at hov
            exact absurd hov (by simp)
          simp only [badTypeCode, hmt, hpi, decide_eq_false_iff_not, not_not]
          exact hbounds
        cases hm2 : v.getItem "message" with
        | error e4 =>
          have hd : Message.decode (some v) = .error e4 := by
            simp [Message.decode, hmt, hpi, hov, hm2, Bind.bind, Except.bind]
          refine ⟨fun _ => .inl ?_, fun _ => ⟨e4, hd,
            getItem_error_ne_validation v "message" e4 hm2⟩⟩
          simp [missingRequired, hasField, hm2]
        | ok msg =>
          cases hm3 : v.getItem "destination" with
          | error e5 =>
            have hd : Message.decode (some v) = .error e5 := by
              simp [Message.decode, hmt, hpi, hov, hm2, hm3,
                Bind.bind, Except.bind]
            refine ⟨fun _ => .inl ?_, fun _ => ⟨e5, hd,
              getItem_error_ne_validation v "destination" e5 hm3⟩⟩
            simp [missingRequired, hasField, hm3]
          | ok dst =>
            cases hm4 : v.getItem "from" with
            | error e6 =>
              have hd : Message.decode (some v) = .error e6 := by
                simp [Message.decode, hmt, hpi, hov, hm2, hm3, hm4,
                  Bind.bind, Except.bind]
              refine ⟨fun _ => .inl ?_, fun _ => ⟨e6, hd,
                getItem_error_ne_validation v "from" e6 hm4⟩⟩
              simp [missingRequired, hasField, hm4]
            | ok frm =>
              have hmiss : missingRequired v = false := by
                simp [missingRequired, hasField, hmt, hm2, hm3, hm4]
              have hd : Message.decode (some v) = Message.mk? t msg dst frm := by
                simp [Message.decode, hmt, hpi, hov, hm2, hm3, hm4,
                  Bind.bind, Except.bind]
              constructor
              · rintro ⟨e, he, hne⟩
                rw [hd] at he
                rcases mk?_ok_or_validation t msg dst frm with hok | herr
                · rw [hok] at he
                  exact absurd he (by simp)
                · have h2 := herr.symm.trans he
                  injection h2 with h2
                  exact absurd h2.symm hne
              · rintro (hfa | hba)
                · rw [hmiss] at hfa
                  exact absurd hfa (by simp)
                · rw [hbad] at hba
                  exact absurd hba (by simp)

/-- A healthy connected client used by concrete instances. -/
def clientA : ClientR :=
  { uuid := "uuid-a", alias_ := .str "", address := ("127.0.0.1", 40001),
    sendOk := true, outbox := [] }

/-- A second healthy connected client. -/
def clientB : ClientR :=
  { uuid := "uuid-b", alias_ := .str "", address := ("127.0.0.1", 40002),
    sendOk := true, outbox := [] }

/-- A client whose socket raises on `send`. -/
def clientDead : ClientR :=
  { uuid := "uuid-dead", alias_ := .str "", address := ("127.0.0.1", 40003),
    sendOk := false, outbox := [] }

/-- A CLIENT_TO_CLIENT message addressed to `clientB` whose `from_`
field carries a spoofed origin instead of the sending session's id. -/
def mSpoof : Message :=
  { message_type := .CLIENT_TO_CLIENT, message := .str "hi",
    destination := .str "uuid-b", from_ := .str "liar" }

/-- A CLIENT_TO_CLIENT message addressed to an id nobody holds. -/
def mNowhere : Message :=
  { message_type := .CLIENT_TO_CLIENT, message := .str "hi",
    destination := .str "uuid-nobody", from_ := .str "uuid-a" }

theorem find?_append_cons {p : ClientR → Bool} (pre post : List ClientR)
    (B : ClientR) (hpre : ∀ x ∈ pre, p x = false) (hB : p B = true) :
    (pre ++ B :: post).find? p = some B := by
  induction pre with
  | nil =>
    rw [List.nil_append]
    exact List.find?_cons_of_pos post hB
  | cons a rest ih =>
    rw [List.cons_append, List.find?_cons_of_neg]
    · exact ih fun x hx => hpre x (List.mem_cons_of_mem a hx)
    · simp [hpre a (List.mem_cons_self a rest)]

theorem deliverTo_append_cons (pre post : List ClientR) (B : ClientR)
    (b : String) (v : JsonVal) (hpre : ∀ x ∈ pre, x.uuid ≠ b)
    (hB : B.uuid = b) :
    deliverTo (pre ++ B :: post) b v
      = pre ++ { B with outbox := B.outbox ++ [v] } :: post := by
  induction pre with
  | nil => simp [deliverTo, hB]
  | cons a rest ih =>
    have ha : (a.uuid == b) = false := by
      simp [hpre a (List.mem_cons_self a rest)]
    have ih' := ih fun x hx => hpre x (List.mem_cons_of_mem a hx)
    simp [deliverTo, ha, ih']

/-- C3 counterexample: session `uuid-a` forwards a CLIENT_TO_CLIENT
message whose client-supplied origin is `"liar"`; exactly one encoded
message reaches `uuid-b`'s outbound stream, and its `from` field is the
spoofed `"liar"`, not the sender's id `"uuid-a"` — the server never
overrides the origin. -/
theorem routing_origin_not_overridden_cex :
    handleMessage "uuid-a" [clientA, clientB] mSpoof
      = .ok [clientA, { clientB with outbox := [mSpoof.dump] }]
    ∧ mSpoof.dump.getItem "from" = .ok (.str "liar")
    ∧ JsonVal.str "liar" ≠ JsonVal.str "uuid-a" := by
  refine ⟨by rfl, by rfl, by simp⟩

/-- C3 amended: when the destination (first match `B`) is present and
its socket healthy, forwarding delivers exactly one encoded message to
`B`'s outbound stream and leaves every other client untouched, but the
message's `from` field is forwarded verbatim as the client supplied it
(the server does not assert its own id as origin). -/
theorem routing_forwards_origin_verbatim (selfUuid b : String)
    (pre post : List ClientR) (B : ClientR) (m : Message)
    (hb : B.uuid = b) (hbne : b ≠ "")
    (hpre : ∀ x ∈ pre, x.uuid ≠ b)
    (hsend : B.sendOk = true)
    (hty : m.message_type = .CLIENT_TO_CLIENT)
    (hdest : m.destination = .str b) :
    handleMessage selfUuid (pre ++ B :: post) m
      = .ok (pre ++ { B with outbox := B.outbox ++ [m.dump] } :: post)
    ∧ m.dump.getItem "from" = .ok m.from_ := by
  have hfind : (pre ++ B :: post).find? (fun c => pyEqStr m.destination c.uuid)
      = some B := by
    refine find?_append_cons pre post B (fun x hx => ?_) ?_
    · simp [pyEqStr, hdest]
      exact fun h => hpre x hx h.symm
    · simp [pyEqStr, hdest, hb]
  have hie : b.isEmpty = false := by
    cases hh : b.isEmpty
    · rfl
    · exact absurd ((String.isEmpty_iff b).mp hh) hbne
  have htr : (!m.destination.truthy) = false := by
    rw [hdest]
    simp [JsonVal.truthy, hie]
  have hget : getByUuid (pre ++ B :: post) m.destination = .ok B := by
    unfold getByUuid
    rw [hfind]
  have hsendB : B.send m.dump
      = .ok { B with outbox := B.outbox ++ [m.dump] } := by
    unfold ClientR.send
    rw [if_pos hsend]
  have hdel := deliverTo_append_cons pre post B B.uuid m.dump
    (fun x hx => by rw [hb]; exact hpre x hx) rfl
  have hstd : sendToDestination (pre ++ B :: post) m
      = .ok (pre ++ { B with outbox := B.outbox ++ [m.dump] } :: post) := by
    unfold sendToDestination
    rw [htr]
    simp only [Bool.false_eq_true, if_false, Bind.bind, Except.bind, hget,
      hsendB]
    rw [hdel]
  have hmain : handleMessage selfUuid (pre ++ B :: post) m
      = .ok (pre ++ { B with outbox := B.outbox ++ [m.dump] } :: post) := by
    simp [handleMessage, hty, hstd]
  exact ⟨hmain, rfl⟩

/-- C3 witness: the amended statement at the concrete spoofed message. -/
theorem routing_forwards_origin_verbatim_witness :
    handleMessage "uuid-a" ([clientA] ++ clientB :: []) mSpoof
      = .ok ([clientA] ++ { clientB with outbox := clientB.outbox ++ [mSpoof.dump] } :: [])
    ∧ mSpoof.dump.getItem "from" = .ok mSpoof.from_ :=
  routing_forwards_origin_verbatim "uuid-a" "uuid-b" [clientA] [] clientB
    mSpoof rfl (by simp) (by simp [clientA]) rfl rfl rfl

/-- C4 counterexample: a CLIENT_TO_CLIENT frame addressed to an id
absent from the registry makes `send_to_destination` raise `ValueError`
to its caller, and the session loop answers the exception by breaking:
the sender's session is terminated rather than continuing. -/
theorem lookup_miss_closes_session_cex :
    sendToDestination [clientA] mNowhere
      = .error (.valueError "No client match the given uuid")
    ∧ handleStep "uuid-a" [clientA] (some mNowhere.dump)
      = .closing [clientA] := by
  exact ⟨rfl, rfl⟩

/-- C4 amended: routing a CLIENT_TO_CLIENT message to an id no client
holds raises `ValueError("No client match the given uuid")` out of
`send_to_destination`; the session loop catches it and breaks, ending
the sender's session with the registry unchanged (the message is
dropped, the process survives, and no other session's state is
touched). -/
theorem lookup_miss_raises_and_closes (selfUuid : String)
    (cs : List ClientR) (data : Bytes) (m : Message)
    (hdec : parseMessage data = .ok m)
    (hty : m.message_type = .CLIENT_TO_CLIENT)
    (hdest : m.destination.truthy = true)
    (hmiss : ∀ c ∈ cs, pyEqStr m.destination c.uuid = false) :
    sendToDestination cs m
      = .error (.valueError "No client match the given uuid")
    ∧ handleStep selfUuid cs data = .closing cs := by
  have hfind : cs.find? (fun c => pyEqStr m.destination c.uuid) = none := by
    rw [List.find?_eq_none]
    intro c hc
    simp [hmiss c hc]
  have hsendd : sendToDestination cs m
      = .error (.valueError "No client match the given uuid") := by
    simp [sendToDestination, hdest, getByUuid, hfind, Bind.bind, Except.bind]
  refine ⟨hsendd, ?_⟩
  simp [handleStep, hdec, hty, handleMessage, hsendd]

/-- C4 witness: the amended statement at a concrete lost destination. -/
theorem lookup_miss_raises_and_closes_witness :
    sendToDestination [clientA] mNowhere
      = .error (.valueError "No client match the given uuid")
    ∧ handleStep "uuid-a" [clientA] (some mNowhere.dump)
      = .closing [clientA] :=
  lookup_miss_raises_and_closes "uuid-a" [clientA] (some mNowhere.dump)
    mNowhere (by rfl) rfl rfl
    (by intro c hc; simp [List.mem_singleton] at hc; simp [hc, mNowhere, pyEqStr, clientA])

/-- C5 counterexample: `remove_client` on a client absent from the
registry (here: the empty registry) raises `KeyError` instead of being
a no-op — Python `set.remove` is not `set.discard`. -/
theorem remove_absent_raises_cex :
    removeClient [] clientDead = .error (.keyError "uuid-dead") := by
  rfl

/-- C5 amended: `remove_client` on a client not present raises
`KeyError`; because the exception is raised before any mutation, the
membership set is left unchanged, but the operation does raise. -/
theorem remove_absent_raises_keyError (cs : List ClientR) (c : ClientR)
    (h : ∀ x ∈ cs, x.uuid ≠ c.uuid) :
    removeClient cs c = .error (.keyError c.uuid) := by
  have hany : (cs.any fun x => x.uuid == c.uuid) = false := by
    rw [List.any_eq_false]
    intro x hx
    simp [h x hx]
  simp [removeClient, hany]

/-- C5 witness: the amended statement at a concrete absent client. -/
theorem remove_absent_raises_keyError_witness :
    removeClient [clientA] clientDead = .error (.keyError "uuid-dead") :=
  remove_absent_raises_keyError [clientA] clientDead
    (by intro x hx; simp [List.mem_singleton] at hx; simp [hx, clientA, clientDead])

/-- C6 counterexample: one unparseable inbound frame (bytes `json.loads`
rejects) makes the session loop break: `handleStep` answers `closing`,
terminating the session instead of dropping the frame and continuing. -/
theorem bad_frame_closes_session_cex :
    handleStep "uuid-a" [clientA] none = .closing [clientA] := by
  rfl

/-- C6 amended: any decode or validation failure on an inbound frame is
logged and terminates the session: `parse_message` re-raises, the
loop's `except Exception` catches it and breaks — exactly the same exit
as a transport error, with the registry unchanged at that point. -/
theorem decode_failure_closes_session (selfUuid : String)
    (cs : List ClientR) (data : Bytes) (e : PyErr)
    (h : parseMessage data = .error e) :
    handleStep selfUuid cs data = .closing cs := by
  simp [handleStep, h]

/-- C6 witness: the amended statement at a frame failing validation
(a CLIENT_TO_CLIENT payload with null destination and null origin). -/
theorem decode_failure_closes_session_witness :
    handleStep "uuid-a" [clientA]
      (some (.obj [("message_type", .num 1), ("message", .str "m"),
        ("destination", .null), ("from", .null)]))
      = .closing [clientA] :=
  decode_failure_closes_session "uuid-a" [clientA]
    (some (.obj [("message_type", .num 1), ("message", .str "m"),
      ("destination", .null), ("from", .null)]))
    validationErr (by rfl)

theorem sendAll_append_fail (v : JsonVal) (pre post : List ClientR)
    (c : ClientR) (hpre : ∀ x ∈ pre, x.sendOk = true)
    (hc : c.sendOk = false) :
    sendAll v (pre ++ c :: post)
      = (pre.map (fun x => { x with outbox := x.outbox ++ [v] })
          ++ c :: post, some .osError) := by
  induction pre with
  | nil => simp [sendAll, ClientR.send, hc]
  | cons a rest ih =>
    have ha := hpre a (List.mem_cons_self a rest)
    have ih' := ih fun x hx => hpre x (List.mem_cons_of_mem a hx)
    simp [sendAll, ClientR.send, ha, ih']

/-- C7 counterexample: broadcasting to `[clientDead, clientB]` stops at
the failing first handle and re-raises: `clientB`, still live, receives
nothing (`updateClients` returns both outboxes unchanged and the
escaped exception) — the failure is not isolated. -/
theorem broadcast_failure_aborts_cex :
    updateClients [clientDead, clientB]
      = ([clientDead, clientB], some .osError) := by
  rfl

/-- C7 amended: a send failure during the directory broadcast is logged
and re-raised, aborting delivery to every handle not yet reached: the
clients before the failing one receive the directory message, the
failing one and all later ones receive nothing, and the exception
escapes `update_clients`.  The failing handle is, as the claim says,
not removed: the registry membership is unchanged. -/
theorem broadcast_failure_aborts_delivery (pre post : List ClientR)
    (c : ClientR) (hpre : ∀ x ∈ pre, x.sendOk = true)
    (hc : c.sendOk = false) :
    updateClients (pre ++ c :: post)
      = (pre.map (fun x =>
            { x with outbox :=
                x.outbox ++ [(directoryMessage (pre ++ c :: post)).dump] })
          ++ c :: post, some .osError)
    ∧ uuids (updateClients (pre ++ c :: post)).1
        = uuids (pre ++ c :: post) := by
  have hne : (pre ++ c :: post).isEmpty = false := by
    cases pre <;> simp [List.isEmpty]
  have hmain := sendAll_append_fail (directoryMessage (pre ++ c :: post)).dump
    pre post c hpre hc
  have hupd : updateClients (pre ++ c :: post)
      = (pre.map (fun x =>
            { x with outbox :=
                x.outbox ++ [(directoryMessage (pre ++ c :: post)).dump] })
          ++ c :: post, some .osError) := by
    rw [updateClients, hne]
    simp only [Bool.false_eq_true, if_false]
    exact hmain
  refine ⟨hupd, ?_⟩
  rw [hupd]
  simp [uuids, List.map_map, Function.comp]

/-- C7 witness: the amended statement with one healthy client before
and one after the failing handle. -/
theorem broadcast_failure_aborts_delivery_witness :
    updateClients ([clientA] ++ clientDead :: [clientB])
      = ([clientA].map (fun x =>
            { x with outbox :=
                x.outbox ++ [(directoryMessage ([clientA] ++ clientDead :: [clientB])).dump] })
          ++ clientDead :: [clientB], some .osError)
    ∧ uuids (updateClients ([clientA] ++ clientDead :: [clientB])).1
        = uuids ([clientA] ++ clientDead :: [clientB]) :=
  broadcast_failure_aborts_delivery [clientA] [clientB] clientDead
    (by intro x hx; simp [List.mem_singleton] at hx; simp [hx, clientA])
    (by rfl)

theorem freshUuid_injective : Function.Injective freshUuid := by
  intro a b h
  have hlen := congrArg (fun s => s.data.length) h
  simp only [freshUuid, List.length_replicate] at hlen
  omega

theorem sendAll_uuids (v : JsonVal) (cs : List ClientR) :
    uuids (sendAll v cs).1 = uuids cs := by
  induction cs with
  | nil => rfl
  | cons c rest ih =>
    have ih' : List.map ClientR.uuid (sendAll v rest).1
        = List.map ClientR.uuid rest := ih
    cases hs : c.sendOk
    · simp [sendAll, ClientR.send, hs]
    · simp [sendAll, ClientR.send, hs, uuids, ih']

theorem updateClients_uuids (cs : List ClientR) :
    uuids (updateClients cs).1 = uuids cs := by
  by_cases he : cs.isEmpty = true
  · rw [updateClients, if_pos he]
  · rw [updateClients, if_neg he]
    exact sendAll_uuids _ cs

theorem updateClients_map_uuid (cs : List ClientR) :
    List.map ClientR.uuid (updateClients cs).1
      = List.map ClientR.uuid cs :=
  updateClients_uuids cs

theorem acceptJoin_uuids (st : ServerSt) (a : String × Int) :
    uuids (acceptJoin st a).clients
      = uuids st.clients ++ [freshUuid st.nextId] := by
  simp [acceptJoin, updateClients_map_uuid, addClient, uuids]

theorem joinN_spec (n : Nat) : ∀ st : ServerSt,
    uuids (joinN n st).clients
      = uuids st.clients
        ++ (List.range n).map (fun i => freshUuid (st.nextId + i)) := by
  induction n with
  | zero => intro st; simp [joinN]
  | succ n ih =>
    intro st
    rw [joinN, ih, acceptJoin_uuids]
    have hnext : (acceptJoin st ("127.0.0.1", 40000 + n)).nextId
        = st.nextId + 1 := rfl
    rw [hnext, List.range_succ_eq_map, List.map_cons, List.map_map]
    simp only [List.append_assoc, List.singleton_append, Nat.add_zero]
    congr 1
    congr 1
    apply List.map_congr_left
    intro i _
    simp only [Function.comp_apply]
    congr 1
    omega

theorem joinN_length (N : Nat) : (joinN N initSt).clients.length = N := by
  have h := congrArg List.length (joinN_spec N initSt)
  simpa [uuids, initSt] using h

theorem removeClient_mem (cs : List ClientR) (c : ClientR) (hc : c ∈ cs) :
    removeClient cs c = .ok (cs.filter fun x => x.uuid != c.uuid) := by
  have hany : (cs.any fun x => x.uuid == c.uuid) = true := by
    rw [List.any_eq_true]
    exact ⟨c, hc, by simp⟩
  simp [removeClient, hany]

theorem closeSession_uuids (c : ClientR) (cs : List ClientR) (hc : c ∈ cs) :
    uuids (closeSession c cs).1
      = uuids (cs.filter fun x => x.uuid != c.uuid) := by
  rw [closeSession, removeClient_mem cs c hc]
  exact updateClients_uuids _

theorem filter_ne_uuid_length (cs : List ClientR) (c : ClientR)
    (hnd : (uuids cs).Nodup) (hc : c ∈ cs) :
    (cs.filter fun x => x.uuid != c.uuid).length = cs.length - 1 := by
  induction cs with
  | nil => cases hc
  | cons a rest ih =>
    simp only [uuids, List.map_cons, List.nodup_cons] at hnd
    rcases List.mem_cons.mp hc with rfl | hmem
    · have hrest : rest.filter (fun x => x.uuid != c.uuid) = rest := by
        apply List.filter_eq_self.mpr
        intro x hx
        simp only [bne_iff_ne, ne_eq, decide_eq_true_eq]
        intro hcontra
        exact hnd.1 (hcontra ▸ List.mem_map_of_mem ClientR.uuid hx)
      simp [List.filter_cons, hrest]
    · have hne : (a.uuid != c.uuid) = true := by
        simp only [bne_iff_ne, ne_eq]
        intro hcontra
        exact hnd.1 (hcontra ▸ List.mem_map_of_mem ClientR.uuid hmem)
      have hpos : 0 < rest.length := List.length_pos.mpr
        (List.ne_nil_of_mem hmem)
      have ihr := ih hnd.2 hmem
      rw [List.filter_cons, if_pos hne]
      simp only [List.length_cons, ihr]
      omega

theorem uuid_not_mem_filter (cs : List ClientR) (c : ClientR) :
    c.uuid ∉ uuids (cs.filter fun x => x.uuid != c.uuid) := by
  simp only [uuids]
  intro h
  rcases List.mem_map.mp h with ⟨x, hxf, hxu⟩
  rcases List.mem_filter.mp hxf with ⟨-, hpred⟩
  simp [hxu] at hpred

/-- C9: after `N` connections join the empty server with no
disconnects, the directory snapshot has exactly `N` entries whose
`uuid` fields are the clients' pairwise-distinct ids; after any one of
them disconnects (the Closing path: removal plus broadcast), a
subsequent snapshot has exactly `N - 1` entries and no longer contains
the departed client's id. -/
theorem directory_correctness (N : Nat) :
    (snapshot (joinN N initSt).clients).length = N
    ∧ (uuids (joinN N initSt).clients).Nodup
    ∧ (snapshot (joinN N initSt).clients).map (fun e => e.getItem "uuid")
        = (uuids (joinN N initSt).clients).map (fun u => Except.ok (JsonVal.str u))
    ∧ ∀ c ∈ (joinN N initSt).clients,
        (snapshot (closeSession c (joinN N initSt).clients).1).length = N - 1
        ∧ c.uuid ∉ uuids (closeSession c (joinN N initSt).clients).1 := by
  have huu : uuids (joinN N initSt).clients = (List.range N).map freshUuid := by
    rw [joinN_spec]
    simp [initSt, uuids]
  have hnd : (uuids (joinN N initSt).clients).Nodup := by
    rw [huu]
    exact (List.nodup_range N).map freshUuid_injective
  refine ⟨?_, hnd, ?_, ?_⟩
  · simp [snapshot, joinN_length]
  · simp only [snapshot, uuids, List.map_map]
    apply List.map_congr_left
    intro c _
    rfl
  · intro c hc
    have hclen : ((closeSession c (joinN N initSt).clients).1).length
        = ((joinN N initSt).clients.filter fun x => x.uuid != c.uuid).length := by
      have h1 := congrArg List.length (closeSession_uuids c _ hc)
      simpa [uuids] using h1
    constructor
    · rw [snapshot, List.length_map, hclen,
        filter_ne_uuid_length _ c hnd hc, joinN_length]
    · rw [closeSession_uuids c _ hc]
      exact uuid_not_mem_filter _ c

/-- C9 witness: two joins, then the first client disconnects. -/
theorem directory_correctness_witness :
    (snapshot (joinN 2 initSt).clients).length = 2
    ∧ ((snapshot (closeSession
          ((joinN 2 initSt).clients.get ⟨0, by rw [joinN_length]; omega⟩)
          (joinN 2 initSt).clients).1).length = 2 - 1
      ∧ ((joinN 2 initSt).clients.get ⟨0, by rw [joinN_length]; omega⟩).uuid
          ∉ uuids (closeSession
              ((joinN 2 initSt).clients.get ⟨0, by rw [joinN_length]; omega⟩)
              (joinN 2 initSt).clients).1) :=
  ⟨(directory_correctness 2).1,
   (directory_correctness 2).2.2.2 _ (List.get_mem _ _ _)⟩

/-- C10 witness: the concrete origin-only message is constructible and
unroutable in the empty registry. -/
theorem valid_but_unroutable_witness :
    Message.mk? .CLIENT_TO_CLIENT (.str "hello") .null (.str "uuid-a")
      = .ok (Message.mk .CLIENT_TO_CLIENT (.str "hello") .null (.str "uuid-a"))
    ∧ sendToDestination []
        (Message.mk .CLIENT_TO_CLIENT (.str "hello") .null (.str "uuid-a"))
      = .error (.valueError "Missing destination.") :=
  ⟨(valid_but_unroutable (.str "hello") "uuid-a" (by simp)).1,
   (valid_but_unroutable (.str "hello") "uuid-a" (by simp)).2 []⟩

end Sockets
